import Mathlib

/-!
# Verification of the Banana E2EE keyring and encrypted-storage subsystem

Shallow embedding of `src/lib/e2ee/crypto.ts`, `src/lib/e2ee/keyring.ts`, the
local plaintext cache (`storage`, `src/unnamed/part_016`) and the encrypted
storage façade (`src/unnamed/part_014`).

Modelling conventions:
* The AEAD primitive (AES-256-GCM from `@noble/ciphers`), the scrypt KDF,
  HMAC-SHA256, hex encoding, UTF-8 encoding and `JSON.stringify`/`JSON.parse`
  are host/library primitives whose code is not part of this repository.
  They are modelled symbolically from the spec (§4.1): byte strings that can
  only arise as fresh randomness or KDF output are a symbolic type `KBytes`,
  an AEAD ciphertext is a term remembering key, nonce and plaintext, and
  decryption succeeds exactly when key and nonce match (spec: "fails
  (authentication error) if key, nonce, or ciphertext was tampered with or
  mismatched").  Hex encoding/decoding is a bijection on byte strings and is
  absorbed by the model (ciphertext values are stored directly).
* Asynchronous effects are modelled by explicit state passing over a system
  state `Sys` (local cache, remote store, in-memory keys, secure key cache,
  authenticated user, a counter for the CSPRNG, a schedule of remote-call
  outcomes, and a count of `console.error` logs).  Thrown exceptions are
  modelled with `Except`.
* The single-threaded cooperative model of §5 means each exported operation
  runs to completion; sequencing inside one call is exactly the source order.
-/

/-- Scrypt cost parameters, as in `kdf_params` (`crypto.ts`). -/
structure KdfParams where
  N : Nat
  r : Nat
  p : Nat
deriving DecidableEq, Repr

/-- Modelled from the spec: symbolic byte strings for key material, nonces and
salts.  `rand i` is the `i`-th output of the CSPRNG (`randomBytes`), `scrypt`
is the deterministic memory-hard KDF of §4.1 (`deriveKey`), and `raw` embeds
any other concrete byte string.  Distinct constructors/arguments denote
distinct byte strings (ideal-primitive assumption). -/
inductive KBytes where
  | rand (i : Nat)
  | scrypt (password : String) (salt : KBytes) (params : KdfParams)
  | raw (bs : List Nat)
deriving DecidableEq, Repr

/-- `deriveKey(password, salt, params)` from `crypto.ts`: deterministic scrypt
KDF (same inputs always yield the same 32-byte output). -/
def deriveKey (password : String) (salt : KBytes) (params : KdfParams) : KBytes :=
  KBytes.scrypt password salt params

/-- JSON values (the JSON-representable structures of §4.1: objects, arrays,
strings, numbers, booleans, null — not `undefined`).  Numbers are modelled as
integers; the round-trip argument does not depend on the number
representation. -/
inductive Json where
  | null
  | bool (b : Bool)
  | num (n : Int)
  | str (s : String)
  | arr (xs : List Json)
  | obj (fields : List (String × Json))

/-- Modelled from the spec: a JavaScript string flowing through the crypto
pipeline is either a literal string or the output of `JSON.stringify` on a
JSON value.  `JSON.stringify` is a host primitive absent from the repository;
it is modelled as the injective tagging `JStr.jsonOf` with `JSON.parse` as its
partial inverse. -/
inductive JStr where
  | lit (s : String)
  | jsonOf (j : Json)

/-- Modelled from the spec: `JSON.parse`, the partial inverse of
`JSON.stringify`.  Parsing a string that is not a serialized JSON document is
not modelled (`none` stands for a parse failure / a thrown exception). -/
def jsonParse : JStr → Option Json
  | .jsonOf j => some j
  | .lit _ => none

/-- Modelled from the spec: an AEAD ciphertext over plaintexts of type `α`.
`enc key nonce pt` is the sealed box produced by AES-256-GCM; `junk` is any
byte string that is not a well-formed ciphertext produced under this scheme
(e.g. corrupted data). -/
inductive Sealed (α : Type) where
  | enc (key : KBytes) (nonce : KBytes) (pt : α)
  | junk (tag : Nat)

/-- `encrypt(plaintext, key)` from `crypto.ts`: draws a fresh random 96-bit
nonce from the CSPRNG (counter `ctr`) and seals the plaintext; returns
`{ciphertext, nonce}` together with the advanced CSPRNG counter. -/
def encrypt {α : Type} (plaintext : α) (key : KBytes) (ctr : Nat) :
    (Sealed α × KBytes) × Nat :=
  ((Sealed.enc key (KBytes.rand ctr) plaintext, KBytes.rand ctr), ctr + 1)

/-- `decrypt(ciphertext, key, nonce)` from `crypto.ts`: AEAD open.  Succeeds
with the original plaintext exactly when the key and nonce match the ones used
to seal; any mismatch or malformed ciphertext is an authentication failure
(`none`, i.e. a thrown error in the source). -/
def decrypt {α : Type} (ciphertext : Sealed α) (key : KBytes) (nonce : KBytes) :
    Option α :=
  match ciphertext with
  | .enc k n pt => if k = key ∧ n = nonce then some pt else none
  | .junk _ => none

/-- `encryptString(plaintext, key)` from `crypto.ts`: UTF-8 encode then
`encrypt`, hex-encoding the results.  UTF-8 and hex are bijections absorbed by
the symbolic model, so the ciphertext is a `Sealed JStr`. -/
def encryptString (plaintext : JStr) (key : KBytes) (ctr : Nat) :
    (Sealed JStr × KBytes) × Nat :=
  encrypt plaintext key ctr

/-- `decryptString(ciphertextHex, key, nonceHex)` from `crypto.ts`: hex-decode,
`decrypt`, UTF-8 decode. -/
def decryptString (ciphertext : Sealed JStr) (key : KBytes) (nonce : KBytes) :
    Option JStr :=
  decrypt ciphertext key nonce

/-- `encryptJson(data, key)` from `crypto.ts`: `JSON.stringify` then
`encryptString`. -/
def encryptJson (data : Json) (key : KBytes) (ctr : Nat) :
    (Sealed JStr × KBytes) × Nat :=
  encryptString (JStr.jsonOf data) key ctr

/-- `decryptJson(ciphertextHex, key, nonceHex)` from `crypto.ts`:
`decryptString` then `JSON.parse`. -/
def decryptJson (ciphertext : Sealed JStr) (key : KBytes) (nonce : KBytes) :
    Option Json :=
  (decryptString ciphertext key nonce).bind jsonParse

/-- C8: For every JSON-representable payload P and every key K, decryptJson
applied to the ciphertext and nonce produced by encryptJson(P, K), with the
same key K, yields a value equal to P. -/
theorem C8_encryptJson_decryptJson_roundtrip (P : Json) (K : KBytes) (ctr : Nat) :
    decryptJson (encryptJson P K ctr).1.1 K (encryptJson P K ctr).1.2 = some P := by
  simp [decryptJson, encryptJson, encryptString, decryptString, encrypt, decrypt,
    jsonParse, Option.bind]

/-!
## Byte-level bucket generation (`generateBucket` in `crypto.ts`)

This part models byte strings concretely (`List Nat`, each element a byte) and
JavaScript strings as lists of characters, so that the hex encoding and the
`.slice(0, 32)` of the source are real operations.  The HMAC-SHA256 primitive
itself is library code (`@noble/hashes`), so the development is parametric in
it: every theorem holds for any function standing in for it.
-/

namespace BucketBytes

/-- Lowercase hex digits, as produced by `bytesToHex` in `@noble/ciphers`. -/
def hexDigit (n : Nat) : Char :=
  ("0123456789abcdef".toList).getD n '0'

/-- Hex encoding of one byte: always exactly two characters. -/
def byteHex (b : Nat) : List Char :=
  [hexDigit (b / 16), hexDigit (b % 16)]

/-- `bytesToHex` (library primitive, realized concretely): each byte becomes
two lowercase hex characters. -/
def bytesToHex (bs : List Nat) : List Char :=
  bs.bind byteHex

/-- UTF-8 encoding of a string (host primitive `TextEncoder.encode`), realized
via Lean's UTF-8 serialization. -/
def utf8Bytes (s : String) : List Nat :=
  s.toUTF8.toList.map (fun b => b.toNat)

/-- `generateBucket(bucketKey, prefix, value)` from `crypto.ts`, parametric in
the HMAC-SHA256 primitive `hm`:
`bytesToHex(hmac(sha256, bucketKey, utf8(prefix + ":" + value))).slice(0, 32)`. -/
def generateBucket (hm : List Nat → List Nat → List Nat)
    (bucketKey : List Nat) (tag value : String) : List Char :=
  (bytesToHex (hm bucketKey (utf8Bytes (tag ++ ":" ++ value)))).take 32

/-- `generateDayBucket(bucketKey, date)` from `crypto.ts`: fixed `"day"` tag. -/
def generateDayBucket (hm : List Nat → List Nat → List Nat)
    (bucketKey : List Nat) (date : String) : List Char :=
  generateBucket hm bucketKey "day" date

/-- `generateMonthBucket(bucketKey, yearMonth)` from `crypto.ts`: fixed
`"month"` tag. -/
def generateMonthBucket (hm : List Nat → List Nat → List Nat)
    (bucketKey : List Nat) (yearMonth : String) : List Char :=
  generateBucket hm bucketKey "month" yearMonth

/-- The bucket formula as the spec words it: the first 16 bytes of
HMAC-SHA256(key, prefix + ":" + value), hex-encoded. -/
def specBucket (hm : List Nat → List Nat → List Nat)
    (bucketKey : List Nat) (tag value : String) : List Char :=
  bytesToHex ((hm bucketKey (utf8Bytes (tag ++ ":" ++ value))).take 16)

/-- Taking `2 * n` hex characters of a hex-encoded byte string is the same as
hex-encoding its first `n` bytes (each byte contributes exactly two
characters). -/
theorem bytesToHex_take (bs : List Nat) (n : Nat) :
    (bytesToHex bs).take (2 * n) = bytesToHex (bs.take n) := by
  induction bs generalizing n with
  | nil => simp [bytesToHex]
  | cons b bs ih =>
    cases n with
    | zero => simp [bytesToHex]
    | succ n =>
      have h2 : 2 * (n + 1) = 2 * n + 1 + 1 := by ring
      simp only [bytesToHex, List.cons_bind, byteHex, h2, List.cons_append,
        List.nil_append, List.take_succ_cons, List.take_cons_succ]
      exact congrArg (fun l => hexDigit (b / 16) :: hexDigit (b % 16) :: l) (ih n)

end BucketBytes

/-- C9: For every key, prefix, and value, generateBucket(key, prefix, value)
equals the first 16 bytes (32 hex characters) of
HMAC-SHA256(key, prefix + ":" + value), hex-encoded; generateDayBucket and
generateMonthBucket are exactly this with the fixed prefixes "day" and
"month"; hence the function is deterministic — the same key and input always
yield an identical string.  Parametric in the HMAC-SHA256 primitive `hm`
(library code); the hypothesis says its output is a genuine byte string. -/
theorem C9_generateBucket_is_truncated_hmac
    (hm : List Nat → List Nat → List Nat) (bucketKey : List Nat)
    (tag value : String)
    (hbytes : ∀ b ∈ hm bucketKey (BucketBytes.utf8Bytes (tag ++ ":" ++ value)),
      b < 256) :
    BucketBytes.generateBucket hm bucketKey tag value
        = BucketBytes.specBucket hm bucketKey tag value
    ∧ BucketBytes.generateDayBucket hm bucketKey value
        = BucketBytes.generateBucket hm bucketKey "day" value
    ∧ BucketBytes.generateMonthBucket hm bucketKey value
        = BucketBytes.generateBucket hm bucketKey "month" value
    ∧ ∀ key₂ value₂, key₂ = bucketKey → value₂ = value →
        BucketBytes.generateBucket hm key₂ tag value₂
          = BucketBytes.generateBucket hm bucketKey tag value := by
  refine ⟨?_, rfl, rfl, ?_⟩
  · have h32 : (32 : Nat) = 2 * 16 := by norm_num
    rw [BucketBytes.generateBucket, BucketBytes.specBucket, h32,
      BucketBytes.bytesToHex_take]
  · intro key₂ value₂ hk hv
    rw [hk, hv]

/-- Witness for C9 at a concrete HMAC stand-in, key and date. -/
theorem C9_generateBucket_is_truncated_hmac_witness :
    (∀ b ∈ (fun (_ _ : List Nat) => List.range 32) [7]
        (BucketBytes.utf8Bytes ("day" ++ ":" ++ "2026-01-20")), b < 256)
    ∧ BucketBytes.generateBucket (fun _ _ => List.range 32) [7] "day" "2026-01-20"
        = BucketBytes.specBucket (fun _ _ => List.range 32) [7] "day" "2026-01-20" :=
  ⟨by decide,
   (C9_generateBucket_is_truncated_hmac (fun _ _ => List.range 32) [7] "day"
      "2026-01-20" (by decide)).1⟩

/-!
## Data model: local plaintext cache (`src/unnamed/part_016`) and remote store
-/

/-- A habit definition (`interface Habit` in the storage module). -/
structure Habit where
  id : String
  name : String
  createdAt : String
deriving DecidableEq, Repr

/-- A journal entry (`interface DailyEntry`). -/
structure DailyEntry where
  id : String
  date : String
  text : String
  mediaUrls : List String
  createdAt : String
deriving DecidableEq, Repr

/-- A habit completion log (`interface HabitLog`). -/
structure HabitLog where
  habitId : String
  date : String
  completed : Bool
deriving DecidableEq, Repr

/-- The local plaintext cache backed by AsyncStorage: the three
JSON-serialized collections stored under `@habits`, `@entries`,
`@habit_logs`. -/
structure LocalStore where
  habits : List Habit
  entries : List DailyEntry
  logs : List HabitLog
deriving DecidableEq, Repr

namespace storage

/-- `storage.getHabits()`. -/
def getHabits (st : LocalStore) : List Habit := st.habits

/-- `storage.saveHabits(habits)`. -/
def saveHabits (st : LocalStore) (habits : List Habit) : LocalStore :=
  { st with habits := habits }

/-- `storage.getDailyEntries()`. -/
def getDailyEntries (st : LocalStore) : List DailyEntry := st.entries

/-- `storage.getDailyEntriesForDate(date)`: all local entries whose `date`
matches. -/
def getDailyEntriesForDate (st : LocalStore) (date : String) : List DailyEntry :=
  (getDailyEntries st).filter (fun e => decide (e.date = date))

/-- TS `entries.findIndex(e => e.id === entry.id)` followed by
`entries[existingIndex] = entry`: replace the first entry with a matching id;
`none` when no entry matches. -/
def replaceEntryById : List DailyEntry → DailyEntry → Option (List DailyEntry)
  | [], _ => none
  | e :: es, entry =>
    if e.id = entry.id then some (entry :: es)
    else (replaceEntryById es entry).map (e :: ·)

/-- `storage.saveDailyEntry(entry)`: update in place when an entry with the
same id exists; otherwise append — unless the entry's calendar day already
holds 2 entries, in which case the new entry is dropped with a console
warning (max-2-entries-per-day limit). -/
def saveDailyEntry (st : LocalStore) (entry : DailyEntry) : LocalStore :=
  match replaceEntryById st.entries entry with
  | some es => { st with entries := es }
  | none =>
    if 2 ≤ ((st.entries.filter (fun e => decide (e.date = entry.date))).length)
    then st
    else { st with entries := st.entries ++ [entry] }

/-- `String(month).padStart(2, '0')`. -/
def pad2 (n : Nat) : String :=
  if n < 10 then "0" ++ toString n else toString n

/-- `storage.getHabitLogs(month, year)`: all logs whose date starts with
`"YYYY-MM"`. -/
def getHabitLogs (st : LocalStore) (month year : Nat) : List HabitLog :=
  let monthStr := toString year ++ "-" ++ pad2 month
  st.logs.filter (fun log => monthStr.isPrefixOf log.date)

/-- TS `allLogs.findIndex(...)` followed by flipping `completed` at that
index: flip the first matching log; `none` when no log matches. -/
def toggleLogList (habitId date : String) : List HabitLog → Option (List HabitLog)
  | [] => none
  | l :: ls =>
    if l.habitId = habitId ∧ l.date = date then
      some ({ l with completed := !l.completed } :: ls)
    else (toggleLogList habitId date ls).map (l :: ·)

/-- `storage.toggleHabitLog(habitId, date)`: flip the first matching log, or
append a new log with `completed: true` when none exists. -/
def toggleHabitLog (st : LocalStore) (habitId date : String) : LocalStore :=
  match toggleLogList habitId date st.logs with
  | some ls => { st with logs := ls }
  | none => { st with logs := st.logs ++ [⟨habitId, date, true⟩] }

/-- `storage.getAllHabitLogs()`. -/
def getAllHabitLogs (st : LocalStore) : List HabitLog := st.logs

end storage

/-!
## Remote store, system state and the keyring (`src/lib/e2ee/keyring.ts`)
-/

/-- Modelled from the spec: for the storage façade the HMAC-SHA256 bucket is
an ideal keyed hash, so a bucket identifier is faithfully represented by the
(key, prefix-tag, value) triple it was computed from — deterministic and
collision-free.  The byte-level refinement of the same source function is
`BucketBytes.generateBucket`. -/
structure BucketId where
  key : KBytes
  tag : String
  value : String
deriving DecidableEq, Repr

/-- `generateBucket(bucketKey, prefix, value)` at the façade level. -/
def generateBucket (bucketKey : KBytes) (tag value : String) : BucketId :=
  ⟨bucketKey, tag, value⟩

/-- `generateDayBucket(bucketKey, date)` at the façade level. -/
def generateDayBucket (bucketKey : KBytes) (date : String) : BucketId :=
  generateBucket bucketKey "day" date

/-- `generateMonthBucket(bucketKey, yearMonth)` at the façade level. -/
def generateMonthBucket (bucketKey : KBytes) (yearMonth : String) : BucketId :=
  generateBucket bucketKey "month" yearMonth

/-- A WrappedKeyMaterial row in the `profiles` table (one per user id).
Hex encoding of the stored fields is a bijection absorbed by the model.  The
bucket-key wrap and its nonce are optional together, modelling older-schema
rows (the legacy fallback read in `unlock`). -/
structure Profile where
  wrapped_master_key : Sealed KBytes
  wrapped_master_key_nonce : KBytes
  wrapped_bucket_key : Option (Sealed KBytes × KBytes)
  kdf_salt : KBytes
  kdf_params : KdfParams

/-- A row of the `entries` table: unique per `(owner_id, day_bucket)`. -/
structure EntryRow where
  id : String
  owner : String
  day : BucketId
  month : BucketId
  ciphertext : Sealed JStr
  nonce : KBytes

/-- A row of the `habits` table (owner-scoped, no bucket). -/
structure HabitRow where
  id : String
  owner : String
  ciphertext : Sealed JStr
  nonce : KBytes

/-- A row of the `habit_logs` table: unique per `(owner_id, day_bucket)`
where the day bucket encodes habit and date. -/
structure HabitLogRow where
  id : String
  owner : String
  day : BucketId
  month : BucketId
  ciphertext : Sealed JStr
  nonce : KBytes

/-- The remote relational store (Supabase).  `nextId` feeds the
server-generated row UUIDs. -/
structure RemoteDB where
  profiles : List (String × Profile)
  entries : List EntryRow
  habits : List HabitRow
  habitLogs : List HabitLogRow
  nextId : Nat

/-- The whole system state: local cache, remote store, the keyring module's
in-memory `masterKey`/`bucketKey` variables, the SecureStore key cache, the
authenticated user, the CSPRNG counter, the schedule of remote-call outcomes
(`true` = success; exhausted schedule = success), and the number of
`console.error` logs emitted. -/
structure Sys where
  store : LocalStore
  remote : RemoteDB
  masterKey : Option KBytes
  bucketKey : Option KBytes
  cacheMaster : Option KBytes
  cacheBucket : Option KBytes
  user : Option String
  rng : Nat
  net : List Bool
  errLog : Nat

/-- Pop the outcome of the next remote store operation from the schedule. -/
def popNet (s : Sys) : Bool × Sys :=
  match s.net with
  | [] => (true, s)
  | b :: rest => (b, { s with net := rest })

/-- Error taxonomy (§7), as thrown by the source:
`notAuthenticated` = 'Not authenticated';
`alreadyConfigured` = 'Encryption already set up. Use unlock instead.';
`profileSaveFailed` = 'Failed to save encryption profile: …';
`noProfile` = 'No encryption profile found. Set up a privacy password first.';
`incorrectPassword` = 'Incorrect password';
`keyringLocked` = 'Keyring is locked. …' / 'Keyring must be unlocked to sync'. -/
inductive KErr where
  | notAuthenticated
  | alreadyConfigured
  | profileSaveFailed
  | noProfile
  | incorrectPassword
  | keyringLocked
deriving DecidableEq, Repr

/-- `isKeyringUnlocked()`: `masterKey !== null`. -/
def isKeyringUnlocked (s : Sys) : Bool := s.masterKey.isSome

/-- `getMasterKey()`: throws 'Keyring is locked…' when `masterKey` is null. -/
def getMasterKey (s : Sys) : Except KErr KBytes :=
  match s.masterKey with
  | some k => .ok k
  | none => .error .keyringLocked

/-- `getBucketKey()`: throws 'Keyring is locked…' when `bucketKey` is null. -/
def getBucketKey (s : Sys) : Except KErr KBytes :=
  match s.bucketKey with
  | some k => .ok k
  | none => .error .keyringLocked

/-- Look up the `profiles` row for a user id. -/
def findProfile (db : RemoteDB) (uid : String) : Option Profile :=
  (db.profiles.find? (fun p => decide (p.1 = uid))).map (·.2)

namespace keyring

/-- `keyring.setupMasterKey(password)`: require an authenticated user and no
existing profile; generate master key, bucket key and salt; derive the KEK
with fixed params `{N: 32768, r: 8, p: 1}`; wrap both keys; insert the
profile row (throwing 'Failed to save encryption profile' if the insert
fails); only then set the in-memory keys and the SecureStore cache. -/
def setupMasterKey (s : Sys) (password : String) : Sys × Except KErr Unit :=
  match s.user with
  | none => (s, .error .notAuthenticated)
  | some uid =>
    let (selOk, s) := popNet s
    match (if selOk then findProfile s.remote uid else none) with
    | some _ => (s, .error .alreadyConfigured)
    | none =>
      let newMasterKey := KBytes.rand s.rng
      let newBucketKey := KBytes.rand (s.rng + 1)
      let salt := KBytes.rand (s.rng + 2)
      let kdfParams : KdfParams := ⟨32768, 8, 1⟩
      let kek := deriveKey password salt kdfParams
      let ((wrappedMasterKey, masterKeyNonce), r1) := encrypt newMasterKey kek (s.rng + 3)
      let ((wrappedBucketKey, bucketKeyNonce), r2) := encrypt newBucketKey kek r1
      let s := { s with rng := r2 }
      let (insOk, s) := popNet s
      if insOk && (findProfile s.remote uid).isNone then
        let prof : Profile :=
          { wrapped_master_key := wrappedMasterKey
            wrapped_master_key_nonce := masterKeyNonce
            wrapped_bucket_key := some (wrappedBucketKey, bucketKeyNonce)
            kdf_salt := salt
            kdf_params := kdfParams }
        let s := { s with remote :=
          { s.remote with profiles := s.remote.profiles ++ [(uid, prof)] } }
        let s := { s with masterKey := some newMasterKey,
                          bucketKey := some newBucketKey,
                          cacheMaster := some newMasterKey,
                          cacheBucket := some newBucketKey }
        (s, .ok ())
      else
        (s, .error .profileSaveFailed)

/-- `keyring.unlock(password)`: fetch the profile, derive the KEK from the
supplied password and the stored salt/params, unwrap the master key, then the
bucket key when present (falling back to the master key for older profiles).
Any unwrap failure surfaces as 'Incorrect password'.  The source assigns the
module-level `masterKey` before attempting the bucket-key unwrap, and the
catch block does not undo that assignment. -/
def unlock (s : Sys) (password : String) : Sys × Except KErr Unit :=
  match s.user with
  | none => (s, .error .notAuthenticated)
  | some uid =>
    let (selOk, s) := popNet s
    match (if selOk then findProfile s.remote uid else none) with
    | none => (s, .error .noProfile)
    | some profile =>
      let kek := deriveKey password profile.kdf_salt profile.kdf_params
      match decrypt profile.wrapped_master_key kek profile.wrapped_master_key_nonce with
      | none => (s, .error .incorrectPassword)
      | some mk =>
        let s := { s with masterKey := some mk }
        match profile.wrapped_bucket_key with
        | some (wrappedBucketKey, bucketKeyNonce) =>
          match decrypt wrappedBucketKey kek bucketKeyNonce with
          | none => (s, .error .incorrectPassword)
          | some bk =>
            ({ s with bucketKey := some bk,
                      cacheMaster := some mk, cacheBucket := some bk }, .ok ())
        | none =>
          ({ s with bucketKey := some mk,
                    cacheMaster := some mk, cacheBucket := some mk }, .ok ())

/-- `keyring.tryRestoreFromCache()`: load the keys from SecureStore without a
password; when only the master key is cached it doubles as the bucket key. -/
def tryRestoreFromCache (s : Sys) : Sys × Bool :=
  match s.cacheMaster with
  | some mk =>
    ({ s with masterKey := some mk,
              bucketKey := some (s.cacheBucket.getD mk) }, true)
  | none => (s, false)

/-- `keyring.lock()`: wipe the in-memory keys; SecureStore is kept. -/
def lock (s : Sys) : Sys :=
  { s with masterKey := none, bucketKey := none }

/-- `keyring.clearAll()`: wipe the in-memory keys and delete the SecureStore
cache. -/
def clearAll (s : Sys) : Sys :=
  { s with masterKey := none, bucketKey := none,
           cacheMaster := none, cacheBucket := none }

end keyring

/-!
## Encrypted storage façade (`src/unnamed/part_014`)
-/

/-- Property access `j[key]` on a decrypted JSON value (an object field
lookup; anything else has no fields). -/
def Json.getField (j : Json) (key : String) : Option Json :=
  match j with
  | .obj fields => (fields.find? (fun f => decide (f.1 = key))).map (·.2)
  | _ => none

/-- Read a JSON value as a string. -/
def Json.asStr : Json → Option String
  | .str s => some s
  | _ => none

/-- Read a JSON value as a boolean. -/
def Json.asBool : Json → Option Bool
  | .bool b => some b
  | _ => none

/-- A string field of a decrypted payload (`decrypted.text` and friends). -/
def Json.getStr (j : Json) (key : String) : String :=
  ((j.getField key).bind Json.asStr).getD ""

/-- A string-array field of a decrypted payload with the source's
`… || []` default (`e.localMediaUrls || []`). -/
def Json.getStrArr (j : Json) (key : String) : List String :=
  match j.getField key with
  | some (.arr xs) => xs.filterMap Json.asStr
  | _ => []

/-- A boolean field of a decrypted payload. -/
def Json.getBool (j : Json) (key : String) : Bool :=
  ((j.getField key).bind Json.asBool).getD false

/-- One element of the `entries` array inside an `EntryPayload`:
`{id, text, createdAt, localMediaUrls}` (built in `saveEncryptedEntry`). -/
def entryItemJson (e : DailyEntry) : Json :=
  .obj [("id", .str e.id), ("text", .str e.text),
        ("createdAt", .str e.createdAt),
        ("localMediaUrls", .arr (e.mediaUrls.map Json.str))]

/-- The `EntryPayload` object built in `saveEncryptedEntry`:
`{date, entries: […]}` aggregating all local entries of one day. -/
def entryPayloadJson (date : String) (es : List DailyEntry) : Json :=
  .obj [("date", .str date), ("entries", .arr (es.map entryItemJson))]

/-- The `HabitPayload` object `{id, name, createdAt}`. -/
def habitPayloadJson (h : Habit) : Json :=
  .obj [("id", .str h.id), ("name", .str h.name),
        ("createdAt", .str h.createdAt)]

/-- The `HabitLogPayload` object `{habitId, date, completed}`. -/
def habitLogPayloadJson (habitId date : String) (completed : Bool) : Json :=
  .obj [("habitId", .str habitId), ("date", .str date),
        ("completed", .bool completed)]

/-- Supabase upsert with `onConflict: 'owner_id,day_bucket'`, replace branch:
update the first row matching `(owner, day)` in place (row id preserved);
`none` when no row matches. -/
def upsertEntryRows (uid : String) (day month : BucketId)
    (ciphertext : Sealed JStr) (nonce : KBytes) :
    List EntryRow → Option (List EntryRow)
  | [] => none
  | r :: rs =>
    if r.owner = uid ∧ r.day = day then
      some ({ r with month := month, ciphertext := ciphertext, nonce := nonce } :: rs)
    else (upsertEntryRows uid day month ciphertext nonce rs).map (r :: ·)

/-- Supabase upsert keyed by `(owner_id, day_bucket)`: replace the matching
row, otherwise insert a fresh row with a server-generated id. -/
def upsertEntry (db : RemoteDB) (uid : String) (day month : BucketId)
    (ciphertext : Sealed JStr) (nonce : KBytes) : RemoteDB :=
  match upsertEntryRows uid day month ciphertext nonce db.entries with
  | some rows => { db with entries := rows }
  | none =>
    { db with
      entries := db.entries ++ [⟨toString db.nextId, uid, day, month, ciphertext, nonce⟩],
      nextId := db.nextId + 1 }

/-- `saveEncryptedEntry(entry)`: always save to the local cache first; if the
keyring is locked, stop (entry saved locally only); otherwise aggregate all
local entries for the day, encrypt the aggregated payload and upsert it keyed
by `(owner_id, day_bucket)`.  A failed upsert is logged with `console.error`
and the function returns normally. -/
def saveEncryptedEntry (s : Sys) (entry : DailyEntry) : Sys × Except KErr Unit :=
  let s := { s with store := storage.saveDailyEntry s.store entry }
  if ¬ isKeyringUnlocked s then (s, .ok ())
  else
    match s.user with
    | none => (s, .ok ())
    | some uid =>
      match s.masterKey, s.bucketKey with
      | some masterKey, some bucketKey =>
        let allEntriesForDate := storage.getDailyEntriesForDate s.store entry.date
        let dayBucket := generateDayBucket bucketKey entry.date
        let monthBucket := generateMonthBucket bucketKey (entry.date.take 7)
        let payload := entryPayloadJson entry.date allEntriesForDate
        let ((ciphertext, nonce), r) := encryptJson payload masterKey s.rng
        let s := { s with rng := r }
        let (upOk, s) := popNet s
        if upOk then
          ({ s with remote := upsertEntry s.remote uid dayBucket monthBucket ciphertext nonce },
           .ok ())
        else
          ({ s with errLog := s.errLog + 1 }, .ok ())
      | _, _ => (s, .error .keyringLocked)

/-- The insert loop of `saveEncryptedHabits`: one encrypted insert per habit
(ids generated by the server; a failed insert is logged and the loop
continues). -/
def insertHabitLoop (uid : String) (masterKey : KBytes) :
    Sys → List Habit → Sys
  | s, [] => s
  | s, habit :: rest =>
    let ((ciphertext, nonce), r) := encryptJson (habitPayloadJson habit) masterKey s.rng
    let s := { s with rng := r }
    let (insOk, s) := popNet s
    let s :=
      if insOk then
        { s with remote := { s.remote with
            habits := s.remote.habits ++ [⟨toString s.remote.nextId, uid, ciphertext, nonce⟩],
            nextId := s.remote.nextId + 1 } }
      else { s with errLog := s.errLog + 1 }
    insertHabitLoop uid masterKey s rest

/-- `saveEncryptedHabits(habits)`: always save locally first; when unlocked,
delete the owner's remote habit rows and reinsert all habits
(delete-and-reinsert-all).  A failed delete is logged and aborts the remote
part; failed inserts are logged and skipped. -/
def saveEncryptedHabits (s : Sys) (habits : List Habit) : Sys × Except KErr Unit :=
  let s := { s with store := storage.saveHabits s.store habits }
  if ¬ isKeyringUnlocked s then (s, .ok ())
  else
    match s.user with
    | none => (s, .ok ())
    | some uid =>
      match s.masterKey with
      | some masterKey =>
        let (delOk, s) := popNet s
        if delOk then
          let s := { s with remote := { s.remote with
            habits := s.remote.habits.filter (fun r => decide (r.owner ≠ uid)) } }
          (insertHabitLoop uid masterKey s habits, .ok ())
        else
          ({ s with errLog := s.errLog + 1 }, .ok ())
      | none => (s, .error .keyringLocked)

/-- The `.single()` existence check of `toggleEncryptedHabitLog`: the first
`habit_logs` row matching `(owner, day_bucket)`. -/
def findLogRow (rows : List HabitLogRow) (uid : String) (day : BucketId) :
    Option HabitLogRow :=
  rows.find? (fun r => decide (r.owner = uid ∧ r.day = day))

/-- Supabase `.update(…).eq('id', existing.id)`: replace the ciphertext and
nonce of the row with the given id. -/
def updateLogRowById (rid : String) (ciphertext : Sealed JStr) (nonce : KBytes) :
    List HabitLogRow → List HabitLogRow
  | [] => []
  | r :: rs =>
    if r.id = rid then { r with ciphertext := ciphertext, nonce := nonce } :: rs
    else r :: updateLogRowById rid ciphertext nonce rs

/-- `toggleEncryptedHabitLog(habitId, date)`: always toggle the local log
first; when unlocked, read the new local `completed` state, encrypt a
`HabitLogPayload`, and update the existing remote row matched by day bucket
(habit and date composite) or insert a new one.  Remote failures are logged
and swallowed. -/
def toggleEncryptedHabitLog (s : Sys) (habitId date : String) :
    Sys × Except KErr Unit :=
  let s := { s with store := storage.toggleHabitLog s.store habitId date }
  if ¬ isKeyringUnlocked s then (s, .ok ())
  else
    match s.user with
    | none => (s, .ok ())
    | some uid =>
      match s.masterKey, s.bucketKey with
      | some masterKey, some bucketKey =>
        let allLogs := storage.getAllHabitLogs s.store
        let completed :=
          ((allLogs.find? (fun l => decide (l.habitId = habitId ∧ l.date = date))).map
            (·.completed)).getD false
        let dayBucket := generateDayBucket bucketKey (habitId ++ ":" ++ date)
        let monthBucket := generateMonthBucket bucketKey (date.take 7)
        let ((ciphertext, nonce), r) :=
          encryptJson (habitLogPayloadJson habitId date completed) masterKey s.rng
        let s := { s with rng := r }
        let (selOk, s) := popNet s
        match (if selOk then findLogRow s.remote.habitLogs uid dayBucket else none) with
        | some row =>
          let (upOk, s) := popNet s
          if upOk then
            ({ s with remote := { s.remote with
                habitLogs := updateLogRowById row.id ciphertext nonce s.remote.habitLogs } },
             .ok ())
          else ({ s with errLog := s.errLog + 1 }, .ok ())
        | none =>
          let (insOk, s) := popNet s
          if insOk then
            ({ s with remote := { s.remote with
                habitLogs := s.remote.habitLogs ++
                  [⟨toString s.remote.nextId, uid, dayBucket, monthBucket, ciphertext, nonce⟩],
                nextId := s.remote.nextId + 1 } },
             .ok ())
          else ({ s with errLog := s.errLog + 1 }, .ok ())
      | _, _ => (s, .error .keyringLocked)

/-- `new Date(d).getFullYear()` for an ISO `YYYY-MM-DD` date string. -/
def dateYear (d : String) : Nat := ((d.take 4).toNat?).getD 0

/-- `new Date(d).getMonth() + 1` for an ISO `YYYY-MM-DD` date string. -/
def dateMonth (d : String) : Nat := (((d.drop 5).take 2).toNat?).getD 0

/-- The decrypt loop of `loadEncryptedEntriesForMonth`: per row, decrypt and
translate — the current multi-entry shape when the payload has an `entries`
array, the legacy single-entry shape otherwise (the entry id is then the row
id).  A row that fails to decrypt is logged and skipped; the second component
counts those `console.error` logs. -/
def decodeEntryRows (masterKey : KBytes) : List EntryRow → List DailyEntry × Nat
  | [] => ([], 0)
  | row :: rest =>
    let (tail, errs) := decodeEntryRows masterKey rest
    match decryptJson row.ciphertext masterKey row.nonce with
    | some decrypted =>
      match decrypted.getField "entries" with
      | some (.arr items) =>
        ((items.map (fun e =>
            ⟨e.getStr "id", decrypted.getStr "date", e.getStr "text",
             e.getStrArr "localMediaUrls", e.getStr "createdAt"⟩)) ++ tail, errs)
      | _ =>
        (⟨row.id, decrypted.getStr "date", decrypted.getStr "text",
          decrypted.getStrArr "localMediaUrls", decrypted.getStr "createdAt"⟩ :: tail,
         errs)
    | none => (tail, errs + 1)

/-- `loadEncryptedEntriesForMonth(year, month)`: when locked, filter the local
cache by calendar month; when unauthenticated, return the whole local cache;
otherwise fetch the rows matching the month bucket and decrypt them (a failed
fetch is logged and falls back to the local cache).  The decrypted entries are
returned without being written back to the local cache. -/
def loadEncryptedEntriesForMonth (s : Sys) (year month : Nat) :
    Sys × Except KErr (List DailyEntry) :=
  if ¬ isKeyringUnlocked s then
    (s, .ok ((storage.getDailyEntries s.store).filter
        (fun e => decide (dateYear e.date = year ∧ dateMonth e.date = month))))
  else
    match s.user with
    | none => (s, .ok (storage.getDailyEntries s.store))
    | some uid =>
      match s.masterKey, s.bucketKey with
      | some masterKey, some bucketKey =>
        let yearMonth := toString year ++ "-" ++ storage.pad2 month
        let monthBucket := generateMonthBucket bucketKey yearMonth
        let (selOk, s) := popNet s
        if selOk then
          let rows := s.remote.entries.filter
            (fun r => decide (r.owner = uid ∧ r.month = monthBucket))
          let (entries, errs) := decodeEntryRows masterKey rows
          ({ s with errLog := s.errLog + errs }, .ok entries)
        else
          ({ s with errLog := s.errLog + 1 }, .ok (storage.getDailyEntries s.store))
      | _, _ => (s, .error .keyringLocked)

/-- The decrypt loop of `loadEncryptedHabits`; failed rows are logged and
skipped. -/
def decodeHabitRows (masterKey : KBytes) : List HabitRow → List Habit × Nat
  | [] => ([], 0)
  | row :: rest =>
    let (tail, errs) := decodeHabitRows masterKey rest
    match decryptJson row.ciphertext masterKey row.nonce with
    | some payload =>
      (⟨payload.getStr "id", payload.getStr "name", payload.getStr "createdAt"⟩ :: tail,
       errs)
    | none => (tail, errs + 1)

/-- `loadEncryptedHabits()`: when locked or unauthenticated, return the local
habits; otherwise fetch and decrypt the owner's habit rows.  When at least one
habit decrypts, the local cache is refreshed with the decrypted list and the
list is returned; otherwise the local habits are returned. -/
def loadEncryptedHabits (s : Sys) : Sys × Except KErr (List Habit) :=
  if ¬ isKeyringUnlocked s then (s, .ok (storage.getHabits s.store))
  else
    match s.user with
    | none => (s, .ok (storage.getHabits s.store))
    | some uid =>
      match s.masterKey with
      | some masterKey =>
        let (selOk, s) := popNet s
        if selOk then
          let rows := s.remote.habits.filter (fun r => decide (r.owner = uid))
          let (habits, errs) := decodeHabitRows masterKey rows
          let s := { s with errLog := s.errLog + errs }
          if habits.length > 0 then
            ({ s with store := storage.saveHabits s.store habits }, .ok habits)
          else (s, .ok (storage.getHabits s.store))
        else
          ({ s with errLog := s.errLog + 1 }, .ok (storage.getHabits s.store))
      | none => (s, .error .keyringLocked)

/-- The decrypt loop of `loadEncryptedHabitLogs`; failed rows are logged and
skipped. -/
def decodeLogRows (masterKey : KBytes) : List HabitLogRow → List HabitLog × Nat
  | [] => ([], 0)
  | row :: rest =>
    let (tail, errs) := decodeLogRows masterKey rest
    match decryptJson row.ciphertext masterKey row.nonce with
    | some payload =>
      (⟨payload.getStr "habitId", payload.getStr "date", payload.getBool "completed"⟩ :: tail,
       errs)
    | none => (tail, errs + 1)

/-- `loadEncryptedHabitLogs(month, year)`: when locked or unauthenticated,
return the month's local logs; otherwise fetch the rows matching the month
bucket and decrypt them, falling back to the local logs when nothing was
obtained.  Nothing is written back to the local cache. -/
def loadEncryptedHabitLogs (s : Sys) (month year : Nat) :
    Sys × Except KErr (List HabitLog) :=
  if ¬ isKeyringUnlocked s then (s, .ok (storage.getHabitLogs s.store month year))
  else
    match s.user with
    | none => (s, .ok (storage.getHabitLogs s.store month year))
    | some uid =>
      match s.masterKey, s.bucketKey with
      | some masterKey, some bucketKey =>
        let yearMonth := toString year ++ "-" ++ storage.pad2 month
        let monthBucket := generateMonthBucket bucketKey yearMonth
        let (selOk, s) := popNet s
        if selOk then
          let rows := s.remote.habitLogs.filter
            (fun r => decide (r.owner = uid ∧ r.month = monthBucket))
          let (logs, errs) := decodeLogRows masterKey rows
          let s := { s with errLog := s.errLog + errs }
          if logs.length > 0 then (s, .ok logs)
          else (s, .ok (storage.getHabitLogs s.store month year))
        else
          ({ s with errLog := s.errLog + 1 },
           .ok (storage.getHabitLogs s.store month year))
      | _, _ => (s, .error .keyringLocked)

/-- The entries loop of `syncLocalDataToCloud`: one `saveEncryptedEntry` per
distinct date (tracked in `datesSynced`, a Set in the source). -/
def syncEntriesLoop : Sys → List DailyEntry → List String → Sys × Except KErr Unit
  | s, [], _ => (s, .ok ())
  | s, entry :: rest, datesSynced =>
    if datesSynced.contains entry.date then syncEntriesLoop s rest datesSynced
    else
      match saveEncryptedEntry s entry with
      | (s, .ok _) => syncEntriesLoop s rest (entry.date :: datesSynced)
      | (s, .error e) => (s, .error e)

/-- The habit-log loop of `syncLocalDataToCloud`: one
`toggleEncryptedHabitLog` per log with `completed: true` in the snapshot taken
before the loop; incomplete logs are skipped. -/
def syncLogsLoop : Sys → List HabitLog → Sys × Except KErr Unit
  | s, [] => (s, .ok ())
  | s, log :: rest =>
    if log.completed then
      match toggleEncryptedHabitLog s log.habitId log.date with
      | (s, .ok _) => syncLogsLoop s rest
      | (s, .error e) => (s, .error e)
    else syncLogsLoop s rest

/-- `syncLocalDataToCloud()`: requires an unlocked keyring (else throws
'Keyring must be unlocked to sync'); one bulk habit save when any habits
exist, one `saveEncryptedEntry` per distinct local entry date, and one
`toggleEncryptedHabitLog` per completed local habit log. -/
def syncLocalDataToCloud (s : Sys) : Sys × Except KErr Unit :=
  if ¬ isKeyringUnlocked s then (s, .error .keyringLocked)
  else
    let habits := storage.getHabits s.store
    match (if habits.length > 0 then saveEncryptedHabits s habits else (s, .ok ())) with
    | (s, .error e) => (s, .error e)
    | (s, .ok _) =>
      let entries := storage.getDailyEntries s.store
      match syncEntriesLoop s entries [] with
      | (s, .error e) => (s, .error e)
      | (s, .ok _) =>
        let logs := storage.getAllHabitLogs s.store
        syncLogsLoop s logs

/-!
## Theorems: keyring claims
-/

/-- A fresh system state for an authenticated user `uid`: empty local cache,
empty remote store, locked keyring, empty SecureStore, all remote calls
succeeding. -/
def freshSys (uid : String) : Sys :=
  { store := ⟨[], [], []⟩
    remote := ⟨[], [], [], [], 0⟩
    masterKey := none
    bucketKey := none
    cacheMaster := none
    cacheBucket := none
    user := some uid
    rng := 0
    net := []
    errLog := 0 }

/-- C3: For every password p, running setupMasterKey(p), then lock(), then
unlock(p) succeeds and leaves the keyring UNLOCKED holding exactly the same
MasterKey and BucketKey that setupMasterKey generated (the freshly generated
random keys, byte-identical after wrap, remote round-trip, KEK re-derivation,
and unwrap). -/
theorem C3_setup_lock_unlock_restores_keys (p : String) :
    (keyring.setupMasterKey (freshSys "u") p).2 = .ok ()
    ∧ (keyring.setupMasterKey (freshSys "u") p).1.masterKey = some (KBytes.rand 0)
    ∧ (keyring.setupMasterKey (freshSys "u") p).1.bucketKey = some (KBytes.rand 1)
    ∧ (keyring.unlock (keyring.lock (keyring.setupMasterKey (freshSys "u") p).1) p).2
        = .ok ()
    ∧ isKeyringUnlocked
        (keyring.unlock (keyring.lock (keyring.setupMasterKey (freshSys "u") p).1) p).1
        = true
    ∧ (keyring.unlock (keyring.lock (keyring.setupMasterKey (freshSys "u") p).1) p).1.masterKey
        = some (KBytes.rand 0)
    ∧ (keyring.unlock (keyring.lock (keyring.setupMasterKey (freshSys "u") p).1) p).1.bucketKey
        = some (KBytes.rand 1) := by
  simp [keyring.setupMasterKey, keyring.unlock, keyring.lock, freshSys, popNet,
    findProfile, decrypt, encrypt, deriveKey, isKeyringUnlocked]

/-- C4: For every password q different from the password p used at setup,
unlock(q) after a valid setup (and a lock) raises IncorrectPassword — the
AEAD authentication failure during unwrap surfaces as this one error — and
leaves the keyring state LOCKED, with no key material resident in memory. -/
theorem C4_wrong_password_rejected (p q : String) (hpq : p ≠ q) :
    (keyring.unlock (keyring.lock (keyring.setupMasterKey (freshSys "u") p).1) q).2
        = .error .incorrectPassword
    ∧ isKeyringUnlocked
        (keyring.unlock (keyring.lock (keyring.setupMasterKey (freshSys "u") p).1) q).1
        = false
    ∧ (keyring.unlock (keyring.lock (keyring.setupMasterKey (freshSys "u") p).1) q).1.masterKey
        = none
    ∧ (keyring.unlock (keyring.lock (keyring.setupMasterKey (freshSys "u") p).1) q).1.bucketKey
        = none := by
  simp [keyring.setupMasterKey, keyring.unlock, keyring.lock, freshSys, popNet,
    findProfile, decrypt, encrypt, deriveKey, isKeyringUnlocked, hpq]

/-- Witness for C4 at concrete distinct passwords. -/
theorem C4_wrong_password_rejected_witness :
    ("correct-password" : String) ≠ "wrong-password"
    ∧ (keyring.unlock
        (keyring.lock (keyring.setupMasterKey (freshSys "u") "correct-password").1)
        "wrong-password").2 = .error .incorrectPassword :=
  ⟨by decide, (C4_wrong_password_rejected "correct-password" "wrong-password"
      (by decide)).1⟩

/-- A profiles row whose master-key wrap is valid for password "pw" but whose
bucket-key wrap is corrupted (not a well-formed ciphertext). -/
def C10profile : Profile :=
  { wrapped_master_key :=
      Sealed.enc (deriveKey "pw" (KBytes.rand 2) ⟨32768, 8, 1⟩) (KBytes.rand 3)
        (KBytes.rand 0)
    wrapped_master_key_nonce := KBytes.rand 3
    wrapped_bucket_key := some (Sealed.junk 0, KBytes.rand 4)
    kdf_salt := KBytes.rand 2
    kdf_params := ⟨32768, 8, 1⟩ }

/-- A locked system whose stored profile is `C10profile`. -/
def C10sys : Sys :=
  { freshSys "u" with remote := ⟨[("u", C10profile)], [], [], [], 0⟩ }

/-- C10 counterexample: `unlock` with the correct password on a profile whose
bucket-key wrap is corrupted throws IncorrectPassword but leaves `masterKey`
assigned and `bucketKey` null — `isKeyringUnlocked()` then returns true while
`getBucketKey()` throws, so the claimed both-null-or-both-non-null invariant
is violated after an operation that throws. -/
theorem C10_half_unlocked_counterexample :
    (keyring.unlock C10sys "pw").2 = .error .incorrectPassword
    ∧ (keyring.unlock C10sys "pw").1.masterKey = some (KBytes.rand 0)
    ∧ (keyring.unlock C10sys "pw").1.bucketKey = none
    ∧ isKeyringUnlocked (keyring.unlock C10sys "pw").1 = true
    ∧ getBucketKey (keyring.unlock C10sys "pw").1 = .error .keyringLocked :=
  ⟨rfl, rfl, rfl, rfl, rfl⟩

/-- The key-pair invariant of C10: the in-memory masterKey and bucketKey are
both null or both non-null. -/
def keyPairInv (s : Sys) : Prop := s.masterKey.isSome = s.bucketKey.isSome

/-- C10 amended: the both-null-or-both-non-null key-pair invariant is
preserved by setupMasterKey, lock, clearAll and tryRestoreFromCache, whether
they return normally or throw; unlock preserves it except in one case — when
the master-key unwrap succeeds and the bucket-key unwrap then fails, unlock
throws IncorrectPassword with `masterKey` assigned and `bucketKey` unchanged
(so from a LOCKED state the invariant is violated). -/
theorem C10_keyPair_invariant_amended (s : Sys) (password : String)
    (hinv : keyPairInv s) :
    keyPairInv (keyring.setupMasterKey s password).1
    ∧ keyPairInv (keyring.lock s)
    ∧ keyPairInv (keyring.clearAll s)
    ∧ keyPairInv (keyring.tryRestoreFromCache s).1
    ∧ (keyPairInv (keyring.unlock s password).1
       ∨ ((keyring.unlock s password).2 = .error .incorrectPassword
          ∧ ((keyring.unlock s password).1.masterKey).isSome = true
          ∧ (keyring.unlock s password).1.bucketKey = s.bucketKey)) := by
  obtain ⟨st, rem, mk, bk, cm, cb, us, rg, nt, el⟩ := s
  refine ⟨?_, ?_, ?_, ?_, ?_⟩
  · rcases us with _ | uid
    · exact hinv
    · simp only [keyring.setupMasterKey, popNet, keyPairInv] at hinv ⊢
      repeat' split
      all_goals simp_all
  · simp [keyring.lock, keyPairInv]
  · simp [keyring.clearAll, keyPairInv]
  · rcases cm with _ | k <;>
      simp only [keyring.tryRestoreFromCache, keyPairInv] at hinv ⊢ <;> simp_all
  · rcases us with _ | uid
    · exact Or.inl hinv
    · simp only [keyring.unlock, popNet, keyPairInv] at hinv ⊢
      repeat' split
      all_goals simp_all

/-- Witness for the C10 amended invariant at a fresh locked system. -/
theorem C10_keyPair_invariant_amended_witness :
    keyPairInv (freshSys "u")
    ∧ keyPairInv (keyring.setupMasterKey (freshSys "u") "pw").1 :=
  ⟨rfl, (C10_keyPair_invariant_amended (freshSys "u") "pw" rfl).1⟩

/-!
## Theorems: façade claims
-/

/-- A locked system holding two local entries for 2026-01-02. -/
def C2sys : Sys :=
  { store := ⟨[], [⟨"e1", "2026-01-02", "a", [], "t1"⟩,
               ⟨"e2", "2026-01-02", "b", [], "t2"⟩], []⟩
    remote := ⟨[], [], [], [], 0⟩
    masterKey := none, bucketKey := none
    cacheMaster := none, cacheBucket := none
    user := some "u", rng := 0, net := [], errLog := 0 }

/-- A third, new entry for the same calendar day. -/
def C2entry : DailyEntry := ⟨"e3", "2026-01-02", "c", [], "t3"⟩

/-- C2 counterexample: saving a new (third) entry for a day that already has
two local entries, while LOCKED, leaves the local cache unchanged — the entry
is dropped by the max-2-entries-per-day limit and is NOT retrievable
afterwards, refuting "the write is never lost … including when other entries
for the same calendar day already exist locally".  (No remote operation is
attempted, as the claim says.) -/
theorem C2_third_entry_dropped_counterexample :
    (saveEncryptedEntry C2sys C2entry).1.store.entries = C2sys.store.entries
    ∧ C2entry ∉
        storage.getDailyEntriesForDate (saveEncryptedEntry C2sys C2entry).1.store
          C2entry.date
    ∧ (saveEncryptedEntry C2sys C2entry).1.remote.entries.length = 0
    ∧ (saveEncryptedEntry C2sys C2entry).2 = .ok () :=
  ⟨rfl, by decide, rfl, rfl⟩

/-- `replaceEntryById` puts the new entry into the updated list whenever it
succeeds. -/
theorem replaceEntryById_mem {es : List DailyEntry} {entry : DailyEntry}
    {es' : List DailyEntry}
    (h : storage.replaceEntryById es entry = some es') : entry ∈ es' := by
  induction es generalizing es' with
  | nil => simp [storage.replaceEntryById] at h
  | cons e es ih =>
    rw [storage.replaceEntryById] at h
    split at h
    · cases h
      exact List.mem_cons_self _ _
    · rcases hmap : storage.replaceEntryById es entry with _ | es₀ <;>
        rw [hmap] at h
      · simp at h
      · simp only [Option.map_some', Option.some.injEq] at h
        subst h
        exact List.mem_cons_of_mem _ (ih hmap)

/-- `replaceEntryById` succeeds whenever some entry in the list has the given
entry's id. -/
theorem replaceEntryById_isSome {es : List DailyEntry} {entry : DailyEntry}
    (h : ∃ e ∈ es, e.id = entry.id) :
    (storage.replaceEntryById es entry).isSome = true := by
  induction es with
  | nil => simp at h
  | cons e es ih =>
    rw [storage.replaceEntryById]
    split
    · rfl
    · rename_i hne
      rcases h with ⟨e', he', hid⟩
      rcases List.mem_cons.mp he' with rfl | hmem
      · exact absurd hid hne
      · rcases hopt : storage.replaceEntryById es entry with _ | es₀
        · have := ih ⟨e', hmem, hid⟩
          rw [hopt] at this
          simp at this
        · simp [hopt]

/-- After `storage.saveDailyEntry`, the entry is retrievable for its date,
provided it updated an existing entry or its day had room. -/
theorem saveDailyEntry_mem (st : LocalStore) (entry : DailyEntry)
    (hroom : (∃ e ∈ st.entries, e.id = entry.id)
      ∨ (st.entries.filter (fun e => decide (e.date = entry.date))).length < 2) :
    entry ∈ storage.getDailyEntriesForDate (storage.saveDailyEntry st entry)
      entry.date := by
  unfold storage.saveDailyEntry
  rcases hrep : storage.replaceEntryById st.entries entry with _ | es'
  · rcases hroom with hex | hlen
    · have := replaceEntryById_isSome hex
      rw [hrep] at this
      simp at this
    · simp only [hrep]
      rw [if_neg (by omega)]
      simp [storage.getDailyEntriesForDate, storage.getDailyEntries,
        List.mem_filter]
  · simp only [hrep]
    have hm := replaceEntryById_mem hrep
    simp [storage.getDailyEntriesForDate, storage.getDailyEntries,
      List.mem_filter, hm]

/-- C2 amended: saving an entry while the keyring is LOCKED attempts no remote
operation, returns normally, and the entry is retrievable from the local
plaintext cache provided it updates an existing local entry (same id) or its
calendar day holds fewer than 2 local entries; a new third entry for a day is
dropped by the local cache's max-2-entries-per-day limit. -/
theorem C2_locked_save_is_local_only (s : Sys) (entry : DailyEntry)
    (hlocked : s.masterKey = none)
    (hroom : (∃ e ∈ s.store.entries, e.id = entry.id)
      ∨ (s.store.entries.filter (fun e => decide (e.date = entry.date))).length < 2) :
    (saveEncryptedEntry s entry).2 = .ok ()
    ∧ (saveEncryptedEntry s entry).1.remote = s.remote
    ∧ (saveEncryptedEntry s entry).1.net = s.net
    ∧ entry ∈ storage.getDailyEntriesForDate (saveEncryptedEntry s entry).1.store
        entry.date := by
  have hsave : saveEncryptedEntry s entry
      = ({ s with store := storage.saveDailyEntry s.store entry }, .ok ()) := by
    rw [saveEncryptedEntry]
    simp [isKeyringUnlocked, hlocked]
  rw [hsave]
  exact ⟨rfl, rfl, rfl, saveDailyEntry_mem s.store entry hroom⟩

/-- Witness for C2 amended: an empty locked system and a fresh entry. -/
theorem C2_locked_save_is_local_only_witness :
    ((freshSys "u").masterKey = none)
    ∧ C2entry ∈ storage.getDailyEntriesForDate
        (saveEncryptedEntry (freshSys "u") C2entry).1.store C2entry.date :=
  ⟨rfl, (C2_locked_save_is_local_only (freshSys "u") C2entry rfl
      (Or.inr (by decide))).2.2.2⟩

/-- A fresh unlocked system for user `uid` with in-memory keys `mk`, `bk`:
empty local cache, empty remote store, all remote calls succeeding. -/
def unlockedSys (uid : String) (mk bk : KBytes) : Sys :=
  { store := ⟨[], [], []⟩
    remote := ⟨[], [], [], [], 0⟩
    masterKey := some mk, bucketKey := some bk
    cacheMaster := some mk, cacheBucket := some bk
    user := some uid, rng := 0, net := [], errLog := 0 }

/-- C5: saving two distinct entries for the same calendar day `d`, one after
the other, under an UNLOCKED keyring results in exactly one remote row for
`(owner_id, day_bucket)`, and decrypting that row's ciphertext yields a
payload whose `entries` array contains both entries — the second save
re-reads all local entries for the day and upserts the merged payload rather
than clobbering the first. -/
theorem C5_day_aggregation (uid : String) (mk bk : KBytes)
    (id1 id2 t1 t2 c1 c2 d : String) (m1 m2 : List String)
    (hid : id1 ≠ id2) :
    (saveEncryptedEntry (saveEncryptedEntry (unlockedSys uid mk bk)
        ⟨id1, d, t1, m1, c1⟩).1 ⟨id2, d, t2, m2, c2⟩).2 = .ok ()
    ∧ ((saveEncryptedEntry (saveEncryptedEntry (unlockedSys uid mk bk)
        ⟨id1, d, t1, m1, c1⟩).1 ⟨id2, d, t2, m2, c2⟩).1.remote.entries.map
          (fun r => (r.owner, r.day)))
        = [(uid, generateDayBucket bk d)]
    ∧ ((saveEncryptedEntry (saveEncryptedEntry (unlockedSys uid mk bk)
        ⟨id1, d, t1, m1, c1⟩).1 ⟨id2, d, t2, m2, c2⟩).1.remote.entries.map
          (fun r => decryptJson r.ciphertext mk r.nonce))
        = [some (entryPayloadJson d [⟨id1, d, t1, m1, c1⟩, ⟨id2, d, t2, m2, c2⟩])]
    ∧ ∃ items,
        (entryPayloadJson d [⟨id1, d, t1, m1, c1⟩, ⟨id2, d, t2, m2, c2⟩]).getField
            "entries" = some (.arr items)
        ∧ entryItemJson ⟨id1, d, t1, m1, c1⟩ ∈ items
        ∧ entryItemJson ⟨id2, d, t2, m2, c2⟩ ∈ items := by
  refine ⟨?_, ?_, ?_,
    ⟨[entryItemJson ⟨id1, d, t1, m1, c1⟩, entryItemJson ⟨id2, d, t2, m2, c2⟩],
      by simp [entryPayloadJson, Json.getField], by simp, by simp⟩⟩ <;>
  simp [saveEncryptedEntry, unlockedSys, isKeyringUnlocked,
    storage.saveDailyEntry, storage.replaceEntryById,
    storage.getDailyEntriesForDate, storage.getDailyEntries, popNet,
    encryptJson, encryptString, encrypt, upsertEntry, upsertEntryRows,
    generateDayBucket, generateMonthBucket, generateBucket,
    decryptJson, decryptString, decrypt, jsonParse,
    entryPayloadJson, entryItemJson, hid]

/-- Witness for C5 at concrete entries and keys. -/
theorem C5_day_aggregation_witness :
    ("a" : String) ≠ "b"
    ∧ ((saveEncryptedEntry (saveEncryptedEntry
          (unlockedSys "u" (KBytes.rand 0) (KBytes.rand 1))
          ⟨"a", "2026-01-02", "x", [], "t1"⟩).1
          ⟨"b", "2026-01-02", "y", [], "t2"⟩).1.remote.entries.map
        (fun r => decryptJson r.ciphertext (KBytes.rand 0) r.nonce))
      = [some (entryPayloadJson "2026-01-02"
          [⟨"a", "2026-01-02", "x", [], "t1"⟩, ⟨"b", "2026-01-02", "y", [], "t2"⟩])] :=
  ⟨by decide,
   (C5_day_aggregation "u" (KBytes.rand 0) (KBytes.rand 1) "a" "b" "x" "y"
      "t1" "t2" "2026-01-02" [] [] (by decide)).2.2.1⟩

/-- An unlocked system whose next remote operation fails. -/
def C6sys : Sys :=
  { unlockedSys "u" (KBytes.rand 0) (KBytes.rand 1) with rng := 10, net := [false] }

/-- C6 counterexample: when the remote upsert of `saveEncryptedEntry` fails,
the caller receives a normal `.ok ()` completion — the failure is only logged
to the console, never surfaced to the caller as an error; no remote row is
written. -/
theorem C6_remote_failure_swallowed_counterexample :
    (saveEncryptedEntry C6sys ⟨"e1", "2026-01-02", "hello", [], "t"⟩).2 = .ok ()
    ∧ (saveEncryptedEntry C6sys ⟨"e1", "2026-01-02", "hello", [], "t"⟩).1.remote.entries.length = 0
    ∧ (saveEncryptedEntry C6sys ⟨"e1", "2026-01-02", "hello", [], "t"⟩).1.errLog
        = C6sys.errLog + 1 :=
  ⟨rfl, rfl, rfl⟩

/-- C6 amended: when the remote upsert/insert of a save operation fails under
an UNLOCKED keyring, the failure is logged to the console and swallowed — the
caller receives a normal completion, not an error — the already-completed
local write is not rolled back, and the remote store is unchanged.  Stated
for `saveEncryptedEntry` (next remote call fails) and
`toggleEncryptedHabitLog` (existence check succeeds, then the update/insert
fails). -/
theorem C6_remote_failure_logged_and_kept (s s2 : Sys) (entry : DailyEntry)
    (habitId date uid uid2 : String) (mk bk mk2 bk2 : KBytes)
    (hu : s.user = some uid) (hmk : s.masterKey = some mk)
    (hbk : s.bucketKey = some bk) (hnet : s.net = [false])
    (hu2 : s2.user = some uid2) (hmk2 : s2.masterKey = some mk2)
    (hbk2 : s2.bucketKey = some bk2) (hnet2 : s2.net = [true, false]) :
    (saveEncryptedEntry s entry).2 = .ok ()
    ∧ (saveEncryptedEntry s entry).1.errLog = s.errLog + 1
    ∧ (saveEncryptedEntry s entry).1.remote = s.remote
    ∧ (saveEncryptedEntry s entry).1.store = storage.saveDailyEntry s.store entry
    ∧ (toggleEncryptedHabitLog s2 habitId date).2 = .ok ()
    ∧ (toggleEncryptedHabitLog s2 habitId date).1.errLog = s2.errLog + 1
    ∧ (toggleEncryptedHabitLog s2 habitId date).1.remote = s2.remote
    ∧ (toggleEncryptedHabitLog s2 habitId date).1.store
        = storage.toggleHabitLog s2.store habitId date := by
  obtain ⟨st, rem, mk0, bk0, cm, cb, us, rg, nt, el⟩ := s
  obtain ⟨st2, rem2, mk02, bk02, cm2, cb2, us2, rg2, nt2, el2⟩ := s2
  dsimp only at hu hmk hbk hnet hu2 hmk2 hbk2 hnet2
  subst hu hmk hbk hnet hu2 hmk2 hbk2 hnet2
  refine ⟨?_, ?_, ?_, ?_, ?_, ?_, ?_, ?_⟩ <;>
    simp [saveEncryptedEntry, toggleEncryptedHabitLog, isKeyringUnlocked,
      popNet, encryptJson, encryptString, encrypt] <;>
    (try (split <;> simp))

/-- An unlocked system whose second remote operation fails. -/
def C6sys2 : Sys :=
  { unlockedSys "u" (KBytes.rand 0) (KBytes.rand 1) with rng := 20, net := [true, false] }

/-- Witness for C6 amended at concrete systems with failing remote writes. -/
theorem C6_remote_failure_logged_and_kept_witness :
    C6sys.net = [false] ∧ C6sys2.net = [true, false]
    ∧ (saveEncryptedEntry C6sys ⟨"e1", "2026-01-02", "hello", [], "t"⟩).1.errLog
        = C6sys.errLog + 1
    ∧ (toggleEncryptedHabitLog C6sys2 "h1" "2026-01-03").2 = .ok () :=
  ⟨rfl, rfl,
   (C6_remote_failure_logged_and_kept C6sys C6sys2
      ⟨"e1", "2026-01-02", "hello", [], "t"⟩ "h1" "2026-01-03" "u" "u"
      (KBytes.rand 0) (KBytes.rand 1) (KBytes.rand 0) (KBytes.rand 1)
      rfl rfl rfl rfl rfl rfl rfl rfl).2.1,
   (C6_remote_failure_logged_and_kept C6sys C6sys2
      ⟨"e1", "2026-01-02", "hello", [], "t"⟩ "h1" "2026-01-03" "u" "u"
      (KBytes.rand 0) (KBytes.rand 1) (KBytes.rand 0) (KBytes.rand 1)
      rfl rfl rfl rfl rfl rfl rfl rfl).2.2.2.2.1⟩

/-- A remote `entries` row for 2026-01-05, validly encrypted under the keys of
`unlockedSys "u" (rand 0) (rand 1)`. -/
def C7row : EntryRow :=
  { id := "0", owner := "u"
    day := generateDayBucket (KBytes.rand 1) "2026-01-05"
    month := generateMonthBucket (KBytes.rand 1) "2026-01"
    ciphertext := Sealed.enc (KBytes.rand 0) (KBytes.rand 7)
      (JStr.jsonOf (entryPayloadJson "2026-01-05"
        [⟨"e1", "2026-01-05", "hello", [], "t"⟩]))
    nonce := KBytes.rand 7 }

/-- An unlocked system with one remote entry row and an empty local cache. -/
def C7sys : Sys :=
  { unlockedSys "u" (KBytes.rand 0) (KBytes.rand 1) with
      remote := ⟨[], [C7row], [], [], 1⟩, rng := 10 }

/-- C7 counterexample: a successful remote read of entries under an UNLOCKED
keyring returns the decrypted entries but does NOT write them back into the
local plaintext cache — the local store is left empty, refuting "each load
operation … writes the decrypted values back into the local plaintext
cache". -/
theorem C7_entries_load_no_writeback_counterexample :
    (loadEncryptedEntriesForMonth C7sys 2026 1).2
        = .ok [⟨"e1", "2026-01-05", "hello", [], "t"⟩]
    ∧ (loadEncryptedEntriesForMonth C7sys 2026 1).1.store.entries = [] :=
  ⟨rfl, rfl⟩

/-- C7 amended: after a successful remote read under an UNLOCKED keyring only
`loadEncryptedHabits` writes the decrypted values back into the local cache
(and only when at least one row decrypts); `loadEncryptedEntriesForMonth` and
`loadEncryptedHabitLogs` never write the local cache at all. -/
theorem C7_cache_writeback_habits_only (s : Sys) (year month : Nat) :
    (loadEncryptedEntriesForMonth s year month).1.store = s.store
    ∧ (loadEncryptedHabitLogs s month year).1.store = s.store
    ∧ (∀ uid mk, s.user = some uid → s.masterKey = some mk → s.net = [] →
        ∀ habits errs,
          decodeHabitRows mk
              (s.remote.habits.filter (fun r => decide (r.owner = uid)))
            = (habits, errs) →
          0 < habits.length →
          (loadEncryptedHabits s).1.store.habits = habits
          ∧ (loadEncryptedHabits s).2 = .ok habits) := by
  refine ⟨?_, ?_, ?_⟩
  · unfold loadEncryptedEntriesForMonth
    simp only [popNet]
    repeat' split
    all_goals simp_all
  · unfold loadEncryptedHabitLogs
    simp only [popNet]
    repeat' split
    all_goals simp_all
  · intro uid mk hu hmk hnet habits errs hdec hlen
    unfold loadEncryptedHabits
    simp [isKeyringUnlocked, hu, hmk, hnet, popNet, hdec, hlen,
      storage.saveHabits, Nat.pos_iff_ne_zero]

/-- A remote `habits` row validly encrypted under the master key of
`unlockedSys "u" (rand 0) (rand 1)`. -/
def C7habitRow : HabitRow :=
  { id := "0", owner := "u"
    ciphertext := Sealed.enc (KBytes.rand 0) (KBytes.rand 8)
      (JStr.jsonOf (habitPayloadJson ⟨"h1", "Run", "t"⟩))
    nonce := KBytes.rand 8 }

/-- An unlocked system with one remote habit row and an empty local cache. -/
def C7habitSys : Sys :=
  { unlockedSys "u" (KBytes.rand 0) (KBytes.rand 1) with
      remote := ⟨[], [], [C7habitRow], [], 1⟩, rng := 30 }

/-- Witness for C7 amended: the entries load leaves a concrete store
untouched, while the habits load writes the decrypted habit back. -/
theorem C7_cache_writeback_habits_only_witness :
    (loadEncryptedEntriesForMonth C7sys 2026 1).1.store = C7sys.store
    ∧ (loadEncryptedHabits C7habitSys).1.store.habits = [⟨"h1", "Run", "t"⟩] :=
  ⟨(C7_cache_writeback_habits_only C7sys 2026 1).1,
   ((C7_cache_writeback_habits_only C7habitSys 2026 1).2.2 "u" (KBytes.rand 0)
      rfl rfl rfl [⟨"h1", "Run", "t"⟩] 0 rfl (by decide)).1⟩

/-- An unlocked system whose local store holds exactly one completed habit
log and nothing else. -/
def C1sys : Sys :=
  { store := ⟨[], [], [⟨"h1", "2026-01-02", true⟩]⟩
    remote := ⟨[], [], [], [], 0⟩
    masterKey := some (KBytes.rand 0), bucketKey := some (KBytes.rand 1)
    cacheMaster := some (KBytes.rand 0), cacheBucket := some (KBytes.rand 1)
    user := some "u", rng := 10, net := [], errLog := 0 }

/-- C1 (code bug): `syncLocalDataToCloud` pushes each completed habit log via
`toggleEncryptedHabitLog`, which first TOGGLES the local log.  On a local
store holding one completed log, a single successful sync (1) flips the local
log to `completed: false` and (2) pushes a remote payload saying
`completed: false` — the "initial upload" un-completes the user's habit
locally and records "not done" remotely.  Moreover (3) idempotency after a
partial failure fails: if the remote insert fails on the first run (the local
toggle having already happened), a re-run skips the now-incomplete log, so
the remote row is never created, unlike a single successful run. -/
theorem C1_sync_uncompletes_local_logs :
    (syncLocalDataToCloud C1sys).2 = .ok ()
    ∧ (syncLocalDataToCloud C1sys).1.store.logs = [⟨"h1", "2026-01-02", false⟩]
    ∧ ((syncLocalDataToCloud C1sys).1.remote.habitLogs.map
        (fun r => decryptJson r.ciphertext (KBytes.rand 0) r.nonce))
      = [some (habitLogPayloadJson "h1" "2026-01-02" false)]
    ∧ (syncLocalDataToCloud
        ((syncLocalDataToCloud { C1sys with net := [true, false] }).1)).1.remote.habitLogs
      = []
    ∧ (syncLocalDataToCloud C1sys).1.remote.habitLogs.length = 1 :=
  ⟨rfl, rfl, rfl, rfl, rfl⟩
